import Mathlib

/-!
Shallow embedding of the RigidSim repository (src/Quaternion.hpp and
src/RigidSolver.hpp) in exact real arithmetic, together with proofs of
the specification claims about it.

The generic 3-vector and 3x3-matrix primitives (`Vector3.hpp`,
`Matrix3x3.hpp`) are not part of the repository sources; following the
specification they are external componentwise-arithmetic value types, and
are modelled here from the spec's interface description.  Everything else
is translated line by line from the two C++ headers.
-/

namespace RigidSim

/-- Modelled from the spec: the external 3-component vector value type
(`Vec3f` of the missing `Vector3.hpp`), with componentwise arithmetic. -/
@[ext]
structure Vec3f where
  x : ℝ
  y : ℝ
  z : ℝ

namespace Vec3f

/-- Modelled from the spec: componentwise vector addition (`operator+`). -/
def add (u v : Vec3f) : Vec3f := ⟨u.x + v.x, u.y + v.y, u.z + v.z⟩

instance : Add Vec3f := ⟨add⟩

/-- Modelled from the spec: scalar scaling of a vector (`s * v` / `v * s`). -/
def smul (s : ℝ) (v : Vec3f) : Vec3f := ⟨s * v.x, s * v.y, s * v.z⟩

instance : SMul ℝ Vec3f := ⟨smul⟩

/-- Modelled from the spec: componentwise division of a vector by a scalar
(`v / s`), as used by `body->P/body->M` and `Vec3f(1.0, 7, 2.4)/5.0`. -/
noncomputable def divs (v : Vec3f) (s : ℝ) : Vec3f := ⟨v.x / s, v.y / s, v.z / s⟩

/-- The zero vector `Vec3f(0, 0, 0)`. -/
def zero : Vec3f := ⟨0, 0, 0⟩

instance : Zero Vec3f := ⟨zero⟩

@[simp] theorem add_def (u v : Vec3f) :
    u + v = ⟨u.x + v.x, u.y + v.y, u.z + v.z⟩ := rfl

@[simp] theorem smul_def (s : ℝ) (v : Vec3f) :
    s • v = ⟨s * v.x, s * v.y, s * v.z⟩ := rfl

@[simp] theorem zero_x : (0 : Vec3f).x = 0 := rfl
@[simp] theorem zero_y : (0 : Vec3f).y = 0 := rfl
@[simp] theorem zero_z : (0 : Vec3f).z = 0 := rfl

end Vec3f

/-- Modelled from the spec: the external 3x3 matrix value type (`Mat3f` of
the missing `Matrix3x3.hpp`); we use Mathlib's `Matrix (Fin 3) (Fin 3) ℝ`,
which supplies the componentwise arithmetic, transpose, product and
identity (`Mat3f::I()`) the spec lists at the interface boundary. -/
abbrev Mat3f := Matrix (Fin 3) (Fin 3) ℝ

/-- Modelled from the spec: matrix–vector product of the external
primitives (`Iinv * L` in the solver). -/
def Mat3f.mulVec3 (A : Mat3f) (v : Vec3f) : Vec3f :=
  ⟨A 0 0 * v.x + A 0 1 * v.y + A 0 2 * v.z,
   A 1 0 * v.x + A 1 1 * v.y + A 1 2 * v.z,
   A 2 0 * v.x + A 2 1 * v.y + A 2 2 * v.z⟩

/-- Modelled from the spec: `A.mulTranspose(B) = A · Bᵗ`, as used in
`Iinv = R * I0inv.mulTranspose(R)`, which the spec reads as
`R · I0inv · Rᵗ`. -/
def Mat3f.mulTranspose (A B : Mat3f) : Mat3f := A * B.transpose

/-- The 4-component quaternion of `src/Quaternion.hpp`: scalar part `a`,
vector part `(b, c, d)`. -/
@[ext]
structure Quaternion where
  a : ℝ
  b : ℝ
  c : ℝ
  d : ℝ

namespace Quaternion

/-- Hamilton product, `Quaternion::operator*(Quaternion const&)`. -/
def qmul (p q : Quaternion) : Quaternion :=
  ⟨p.a * q.a - p.b * q.b - p.c * q.c - p.d * q.d,
   p.a * q.b + p.b * q.a + p.c * q.d - p.d * q.c,
   p.a * q.c - p.b * q.d + p.c * q.a + p.d * q.b,
   p.a * q.d + p.b * q.c - p.c * q.b + p.d * q.a⟩

/-- Componentwise sum, `Quaternion::operator+`. -/
def qadd (p q : Quaternion) : Quaternion :=
  ⟨p.a + q.a, p.b + q.b, p.c + q.c, p.d + q.d⟩

/-- Scalar scaling, `Quaternion::operator*(tReal const&)`. -/
def qsmul (p : Quaternion) (s : ℝ) : Quaternion :=
  ⟨s * p.a, s * p.b, s * p.c, s * p.d⟩

/-- Dot product, `Quaternion::dot`. -/
def dot (p q : Quaternion) : ℝ :=
  p.a * q.a + p.b * q.b + p.c * q.c + p.d * q.d

/-- `Quaternion::normalize`: scale by `1.0 / sqrt(dot(*this, *this))`.
No guard: the zero quaternion divides by zero. -/
noncomputable def normalize (p : Quaternion) : Quaternion :=
  p.qsmul (1 / Real.sqrt (p.dot p))

/-- The norm `sqrt(dot(p,p))` of a quaternion (used to state the unit-norm
claims; the source computes `dot` and `sqrt` separately). -/
noncomputable def qnorm (p : Quaternion) : ℝ := Real.sqrt (p.dot p)

/-- `Quaternion::toRotationMatrix`, entry for entry as written in the
source — including the `b*b - c*c` (rather than `b*b + c*c`) in the last
entry. -/
def toRotationMatrix (p : Quaternion) : Mat3f :=
  !![1 - 2 * (p.c * p.c + p.d * p.d),
     2 * (p.b * p.c - p.a * p.d),
     2 * (p.b * p.d + p.a * p.c);
     2 * (p.b * p.c + p.a * p.d),
     1 - 2 * (p.b * p.b + p.d * p.d),
     2 * (p.c * p.d - p.a * p.b);
     2 * (p.b * p.d - p.a * p.c),
     2 * (p.c * p.d + p.a * p.b),
     1 - 2 * (p.b * p.b - p.c * p.c)]

end Quaternion

section QuaternionLemmas

open Quaternion

/-- The self-dot of a quaternion is a sum of squares, hence nonnegative. -/
theorem dot_self_nonneg (p : Quaternion) : 0 ≤ p.dot p := by
  have ha := mul_self_nonneg p.a
  have hb := mul_self_nonneg p.b
  have hc := mul_self_nonneg p.c
  have hd := mul_self_nonneg p.d
  unfold Quaternion.dot
  linarith

/-- Scaling a quaternion scales its self-dot by the square of the factor. -/
theorem dot_qsmul_self (p : Quaternion) (s : ℝ) :
    (p.qsmul s).dot (p.qsmul s) = s ^ 2 * p.dot p := by
  simp only [Quaternion.qsmul, Quaternion.dot]
  ring

/-- Normalizing a quaternion of nonzero self-dot yields self-dot 1. -/
theorem dot_normalize_self (p : Quaternion) (h : p.dot p ≠ 0) :
    (normalize p).dot (normalize p) = 1 := by
  unfold Quaternion.normalize
  rw [dot_qsmul_self, div_pow, one_pow,
    Real.sq_sqrt (dot_self_nonneg p), one_div, inv_mul_cancel₀ h]

end QuaternionLemmas

/-- C1: the conversion `toRotationMatrix` does NOT return an orthonormal
matrix for every unit quaternion: at the unit quaternion
`q = (3/5, 0, 4/5, 0)` the returned matrix `R` has `Rᵗ·R ≠ I` and
`det R ≠ 1` (the source's last entry reads `1-2*(b*b - c*c)` where the
standard formula, which the spec prescribes, has `1-2*(b*b + c*c)`). -/
theorem toRotationMatrix_not_orthonormal :
    Quaternion.dot ⟨3/5, 0, 4/5, 0⟩ ⟨3/5, 0, 4/5, 0⟩ = 1 ∧
    (Quaternion.toRotationMatrix ⟨3/5, 0, 4/5, 0⟩).transpose
        * Quaternion.toRotationMatrix ⟨3/5, 0, 4/5, 0⟩ ≠ 1 ∧
    (Quaternion.toRotationMatrix ⟨3/5, 0, 4/5, 0⟩).det ≠ 1 := by
  refine ⟨by norm_num [Quaternion.dot], ?_, ?_⟩
  · intro h
    have h22 := congrFun (congrFun h 2) 2
    rw [Matrix.mul_apply] at h22
    simp only [Quaternion.toRotationMatrix, Fin.sum_univ_three,
      Matrix.transpose_apply, Matrix.one_apply, Matrix.cons_val',
      Matrix.cons_val_zero, Matrix.cons_val_one, Matrix.head_cons,
      Matrix.empty_val', Matrix.cons_val_fin_one, Matrix.head_fin_const,
      Matrix.of_apply, Matrix.cons_val_two, Matrix.tail_cons] at h22
    norm_num at h22
  · rw [Matrix.det_fin_three]
    simp only [Quaternion.toRotationMatrix, Matrix.cons_val',
      Matrix.cons_val_zero, Matrix.cons_val_one, Matrix.head_cons,
      Matrix.empty_val', Matrix.cons_val_fin_one, Matrix.head_fin_const,
      Matrix.of_apply, Matrix.cons_val_two, Matrix.tail_cons]
    norm_num

/-- C8: for every quaternion `p` with nonzero self-dot, `normalize p`
has norm 1 (the divisor `sqrt(dot(p,p))` is nonzero, so the division is
well-defined). -/
theorem normalize_unit_norm (p : Quaternion) (h : p.dot p ≠ 0) :
    Quaternion.qnorm (Quaternion.normalize p) = 1 := by
  rw [Quaternion.qnorm, dot_normalize_self p h, Real.sqrt_one]

/-- Witness for C8 at the concrete quaternion `(3, 0, 4, 0)`. -/
theorem normalize_unit_norm_witness :
    Quaternion.dot ⟨3, 0, 4, 0⟩ ⟨3, 0, 4, 0⟩ ≠ 0 ∧
    Quaternion.qnorm (Quaternion.normalize ⟨3, 0, 4, 0⟩) = 1 :=
  ⟨by norm_num [Quaternion.dot],
   normalize_unit_norm ⟨3, 0, 4, 0⟩ (by norm_num [Quaternion.dot])⟩

/-- C10: the implemented Hamilton multiplication is associative: for all
quaternions `p q r`, `(p*q)*r = p*(q*r)` componentwise, in exact real
arithmetic. -/
theorem quaternion_mul_assoc (p q r : Quaternion) :
    Quaternion.qmul (Quaternion.qmul p q) r
      = Quaternion.qmul p (Quaternion.qmul q r) := by
  refine Quaternion.ext ?_ ?_ ?_ ?_ <;> simp [Quaternion.qmul] <;> ring

/-- The rigid-body state aggregate of `src/RigidSolver.hpp`
(`struct BodyAttributes`). -/
structure BodyAttributes where
  M : ℝ
  I0 : Mat3f
  I0inv : Mat3f
  Iinv : Mat3f
  X : Vec3f
  R : Mat3f
  Q : Quaternion
  P : Vec3f
  L : Vec3f
  V : Vec3f
  omega : Vec3f
  F : Vec3f
  tau : Vec3f
  vdata0 : List Vec3f

/-- `Box::Box(w, h, d, dens, v0, omega0)`: starts from the
`BodyAttributes` defaults (`X=(0,0,0)`, `Q=(1,0,0,0)`, `R=I`,
`P=L=V=omega=F=tau=0`), then assigns `V`, `omega` and the physical
attributes.  The `(1/12)` coefficient of `I0` is integer division in the
source (both operands are `int` literals), embedded here as `(1:ℤ)/12`
cast to `ℝ`. -/
noncomputable def mkBox (w h d dens : ℝ) (v0 omega0 : Vec3f) :
    BodyAttributes :=
  { M := dens * w * h * d
    I0 := ((((1 : ℤ) / 12 : ℤ) : ℝ) * (dens * w * h * d)) •
          !![h * h + d * d, 0, 0;
             0, w * w + d * d, 0;
             0, 0, w * w + h * h]
    I0inv := (12 / (dens * w * h * d)) •
          !![1 / (h * h + d * d), 0, 0;
             0, 1 / (w * w + d * d), 0;
             0, 0, 1 / (w * w + h * h)]
    Iinv := (1 : Mat3f) * Mat3f.mulTranspose
          ((12 / (dens * w * h * d)) •
          !![1 / (h * h + d * d), 0, 0;
             0, 1 / (w * w + d * d), 0;
             0, 0, 1 / (w * w + h * h)]) (1 : Mat3f)
    X := ⟨0, 0, 0⟩
    R := 1
    Q := ⟨1, 0, 0, 0⟩
    P := ⟨0, 0, 0⟩
    L := ⟨0, 0, 0⟩
    V := v0
    omega := omega0
    F := ⟨0, 0, 0⟩
    tau := ⟨0, 0, 0⟩
    vdata0 :=
      [⟨-(0.5 * w), -(0.5 * h), -(0.5 * d)⟩,
       ⟨0.5 * w, -(0.5 * h), -(0.5 * d)⟩,
       ⟨0.5 * w, 0.5 * h, -(0.5 * d)⟩,
       ⟨-(0.5 * w), 0.5 * h, -(0.5 * d)⟩,
       ⟨-(0.5 * w), -(0.5 * h), 0.5 * d⟩,
       ⟨0.5 * w, -(0.5 * h), 0.5 * d⟩,
       ⟨0.5 * w, 0.5 * h, 0.5 * d⟩,
       ⟨-(0.5 * w), 0.5 * h, 0.5 * d⟩] }

/-- The solver of `src/RigidSolver.hpp` (`class RigidSolver`): the bound
body (the C++ holds a pointer; we embed the pointee), the gravity `_g`,
the step counter `_step` and the simulation clock `_sim_t`. -/
structure RigidSolver where
  body : BodyAttributes
  g : Vec3f
  stepCount : ℕ
  simT : ℝ

/-- `RigidSolver::RigidSolver(body0, g)`. -/
def mkSolver (body0 : BodyAttributes) (g : Vec3f) : RigidSolver :=
  ⟨body0, g, 0, 0⟩

/-- `RigidSolver::init(body0)`: rebind the body, reset `_step` and
`_sim_t` to zero. -/
def RigidSolver.init (s : RigidSolver) (body0 : BodyAttributes) :
    RigidSolver :=
  { s with body := body0, stepCount := 0, simT := 0 }

/-- `RigidSolver::computeForceAndTorque()`: `F = _g*.1`, `tau = 0`; when
`_step == 1` additionally `F += Vec3f(1.0, 7, 2.4)/5.0` and
`tau = Vec3f(.005, .005, 0.0)`. -/
noncomputable def computeForceAndTorque (s : RigidSolver) : RigidSolver :=
  let F0 : Vec3f := (0.1 : ℝ) • s.g
  let tau0 : Vec3f := ⟨0, 0, 0⟩
  if s.stepCount = 1 then
    { s with body :=
        { s.body with
            F := F0 + (Vec3f.mk 1.0 7 2.4).divs 5.0
            tau := ⟨0.005, 0.005, 0.0⟩ } }
  else
    { s with body := { s.body with F := F0, tau := tau0 } }

/-- `RigidSolver::step(dt)`, in the source's order: force/torque model,
velocity derivation from pre-update momenta, momentum update, position
update, quaternion update and renormalization, matrix resync, counter
and clock advance. -/
noncomputable def RigidSolver.step (s0 : RigidSolver) (dt : ℝ) :
    RigidSolver :=
  let s := computeForceAndTorque s0
  let b := s.body
  let V' := b.P.divs b.M
  let omega' := b.Iinv.mulVec3 b.L
  let P' := b.P + dt • b.F
  let L' := b.L + dt • b.tau
  let X' := b.X + dt • V'
  let Q' := Quaternion.qadd b.Q
    (Quaternion.qsmul
      (Quaternion.qmul ⟨0, omega'.x, omega'.y, omega'.z⟩ b.Q) dt)
  let Qn := Q'.normalize
  { s with
      body :=
        { b with
            V := V', omega := omega', P := P', L := L', X := X',
            Q := Qn, R := Qn.toRotationMatrix }
      stepCount := s.stepCount + 1
      simT := s.simT + dt }

/-- A sequence of consecutive `step` calls, one per entry of `dts`. -/
noncomputable def runSteps (s : RigidSolver) (dts : List ℝ) : RigidSolver :=
  dts.foldl RigidSolver.step s

/-- `n` consecutive `step` calls with the same fixed increment `dt`. -/
noncomputable def stepN (s : RigidSolver) (dt : ℝ) : ℕ → RigidSolver
  | 0 => s
  | n + 1 => (stepN s dt n).step dt

section SolverLemmas

@[simp] theorem cft_stepCount (s : RigidSolver) :
    (computeForceAndTorque s).stepCount = s.stepCount := by
  unfold computeForceAndTorque; split <;> rfl

@[simp] theorem cft_g (s : RigidSolver) :
    (computeForceAndTorque s).g = s.g := by
  unfold computeForceAndTorque; split <;> rfl

@[simp] theorem cft_M (s : RigidSolver) :
    (computeForceAndTorque s).body.M = s.body.M := by
  unfold computeForceAndTorque; split <;> rfl

@[simp] theorem cft_I0 (s : RigidSolver) :
    (computeForceAndTorque s).body.I0 = s.body.I0 := by
  unfold computeForceAndTorque; split <;> rfl

@[simp] theorem cft_I0inv (s : RigidSolver) :
    (computeForceAndTorque s).body.I0inv = s.body.I0inv := by
  unfold computeForceAndTorque; split <;> rfl

@[simp] theorem cft_Iinv (s : RigidSolver) :
    (computeForceAndTorque s).body.Iinv = s.body.Iinv := by
  unfold computeForceAndTorque; split <;> rfl

@[simp] theorem cft_vdata0 (s : RigidSolver) :
    (computeForceAndTorque s).body.vdata0 = s.body.vdata0 := by
  unfold computeForceAndTorque; split <;> rfl

@[simp] theorem cft_X (s : RigidSolver) :
    (computeForceAndTorque s).body.X = s.body.X := by
  unfold computeForceAndTorque; split <;> rfl

@[simp] theorem cft_P (s : RigidSolver) :
    (computeForceAndTorque s).body.P = s.body.P := by
  unfold computeForceAndTorque; split <;> rfl

@[simp] theorem cft_L (s : RigidSolver) :
    (computeForceAndTorque s).body.L = s.body.L := by
  unfold computeForceAndTorque; split <;> rfl

@[simp] theorem cft_Q (s : RigidSolver) :
    (computeForceAndTorque s).body.Q = s.body.Q := by
  unfold computeForceAndTorque; split <;> rfl

/-- The force set by the force model when the step counter is 1. -/
theorem cft_F_of_eq_one (s : RigidSolver) (h : s.stepCount = 1) :
    (computeForceAndTorque s).body.F
      = (0.1 : ℝ) • s.g + (Vec3f.mk 1.0 7 2.4).divs 5.0 := by
  unfold computeForceAndTorque; rw [if_pos h]

/-- The torque set by the force model when the step counter is 1. -/
theorem cft_tau_of_eq_one (s : RigidSolver) (h : s.stepCount = 1) :
    (computeForceAndTorque s).body.tau = ⟨0.005, 0.005, 0.0⟩ := by
  unfold computeForceAndTorque; rw [if_pos h]

/-- The force set by the force model when the step counter is not 1. -/
theorem cft_F_of_ne_one (s : RigidSolver) (h : s.stepCount ≠ 1) :
    (computeForceAndTorque s).body.F = (0.1 : ℝ) • s.g := by
  unfold computeForceAndTorque; rw [if_neg h]

/-- The torque set by the force model when the step counter is not 1. -/
theorem cft_tau_of_ne_one (s : RigidSolver) (h : s.stepCount ≠ 1) :
    (computeForceAndTorque s).body.tau = ⟨0, 0, 0⟩ := by
  unfold computeForceAndTorque; rw [if_neg h]

@[simp] theorem step_stepCount (s : RigidSolver) (dt : ℝ) :
    (s.step dt).stepCount = s.stepCount + 1 := by
  simp [RigidSolver.step]

@[simp] theorem step_g (s : RigidSolver) (dt : ℝ) :
    (s.step dt).g = s.g := by
  simp [RigidSolver.step]

/-- `step` keeps the force accumulator at the value the force model set. -/
theorem step_F (s : RigidSolver) (dt : ℝ) :
    (s.step dt).body.F = (computeForceAndTorque s).body.F := rfl

/-- `step` keeps the torque accumulator at the value the force model set. -/
theorem step_tau (s : RigidSolver) (dt : ℝ) :
    (s.step dt).body.tau = (computeForceAndTorque s).body.tau := rfl

/-- `runSteps` never touches the gravity vector. -/
theorem runSteps_g (s : RigidSolver) (dts : List ℝ) :
    (runSteps s dts).g = s.g := by
  induction dts generalizing s with
  | nil => rfl
  | cons a l ih => rw [runSteps, List.foldl_cons, ← runSteps, ih, step_g]

/-- Each `step` call advances the counter by exactly one, so after
running a list of calls the counter has grown by the list's length. -/
theorem runSteps_stepCount (s : RigidSolver) (dts : List ℝ) :
    (runSteps s dts).stepCount = s.stepCount + dts.length := by
  induction dts generalizing s with
  | nil => rfl
  | cons a l ih =>
      rw [runSteps, List.foldl_cons, ← runSteps, ih, step_stepCount,
        List.length_cons]
      omega

@[simp] theorem Vec3f.smul_zero_vec (s : ℝ) :
    s • (Vec3f.mk 0 0 0) = Vec3f.mk 0 0 0 := by
  simp

@[simp] theorem Vec3f.add_zero_vec (v : Vec3f) :
    v + Vec3f.mk 0 0 0 = v := by
  simp

@[simp] theorem Vec3f.divs_zero_vec (s : ℝ) :
    (Vec3f.mk 0 0 0).divs s = Vec3f.mk 0 0 0 := by
  simp [Vec3f.divs]

@[simp] theorem Mat3f.mulVec3_zero_vec (A : Mat3f) :
    A.mulVec3 (Vec3f.mk 0 0 0) = Vec3f.mk 0 0 0 := by
  simp [Mat3f.mulVec3]

/-- `step` derives the linear velocity from the pre-update momentum. -/
theorem step_V (s : RigidSolver) (dt : ℝ) :
    (s.step dt).body.V = s.body.P.divs s.body.M := by
  show (computeForceAndTorque s).body.P.divs (computeForceAndTorque s).body.M
      = _
  rw [cft_P, cft_M]

/-- `step` derives the angular velocity from the pre-update angular
momentum via the (never recomputed) `Iinv`. -/
theorem step_omega (s : RigidSolver) (dt : ℝ) :
    (s.step dt).body.omega = s.body.Iinv.mulVec3 s.body.L := by
  show (computeForceAndTorque s).body.Iinv.mulVec3
      (computeForceAndTorque s).body.L = _
  rw [cft_Iinv, cft_L]

/-- `step` updates the linear momentum by `dt` times the computed force. -/
theorem step_P (s : RigidSolver) (dt : ℝ) :
    (s.step dt).body.P
      = s.body.P + dt • (computeForceAndTorque s).body.F := by
  show (computeForceAndTorque s).body.P
      + dt • (computeForceAndTorque s).body.F = _
  rw [cft_P]

/-- `step` updates the angular momentum by `dt` times the computed
torque. -/
theorem step_L (s : RigidSolver) (dt : ℝ) :
    (s.step dt).body.L
      = s.body.L + dt • (computeForceAndTorque s).body.tau := by
  show (computeForceAndTorque s).body.L
      + dt • (computeForceAndTorque s).body.tau = _
  rw [cft_L]

/-- `step` advances the position by `dt` times the derived velocity. -/
theorem step_X (s : RigidSolver) (dt : ℝ) :
    (s.step dt).body.X
      = s.body.X + dt • (s.body.P.divs s.body.M) := by
  show (computeForceAndTorque s).body.X
      + dt • ((computeForceAndTorque s).body.P.divs
          (computeForceAndTorque s).body.M) = _
  rw [cft_X, cft_P, cft_M]

/-- `step` updates the quaternion by the renormalized
`Q + (0, omega)·Q·dt`, with `omega = Iinv · L` from pre-update `L`. -/
theorem step_Q (s : RigidSolver) (dt : ℝ) :
    (s.step dt).body.Q
      = (Quaternion.qadd s.body.Q
          (Quaternion.qsmul
            (Quaternion.qmul
              ⟨0, (s.body.Iinv.mulVec3 s.body.L).x,
                  (s.body.Iinv.mulVec3 s.body.L).y,
                  (s.body.Iinv.mulVec3 s.body.L).z⟩
              s.body.Q) dt)).normalize := by
  show (Quaternion.qadd (computeForceAndTorque s).body.Q
      (Quaternion.qsmul
        (Quaternion.qmul
          ⟨0, ((computeForceAndTorque s).body.Iinv.mulVec3
                (computeForceAndTorque s).body.L).x,
              ((computeForceAndTorque s).body.Iinv.mulVec3
                (computeForceAndTorque s).body.L).y,
              ((computeForceAndTorque s).body.Iinv.mulVec3
                (computeForceAndTorque s).body.L).z⟩
          (computeForceAndTorque s).body.Q) dt)).normalize = _
  rw [cft_Q, cft_Iinv, cft_L]

/-- `step` resynchronizes `R` from the updated quaternion. -/
theorem step_R (s : RigidSolver) (dt : ℝ) :
    (s.step dt).body.R = ((s.step dt).body.Q).toRotationMatrix := rfl

end SolverLemmas

/-- C3: for every box, the stored body-space inertia tensor `I0` is the
zero matrix — the `(1/12)` coefficient is evaluated in integer
arithmetic and yields 0 — so `I0 * I0inv` is the zero matrix, not the
identity: `I0` is not the inverse of the separately computed `I0inv`. -/
theorem box_I0_zero (w h d dens : ℝ) (v0 omega0 : Vec3f) :
    (mkBox w h d dens v0 omega0).I0 = 0 ∧
    (mkBox w h d dens v0 omega0).I0 * (mkBox w h d dens v0 omega0).I0inv
        ≠ 1 := by
  have h12 : ((1 : ℤ) / 12 : ℤ) = 0 := by decide
  have hI0 : (mkBox w h d dens v0 omega0).I0 = 0 := by
    show ((((1 : ℤ) / 12 : ℤ) : ℝ) * (dens * w * h * d)) • _ = 0
    rw [h12, Int.cast_zero, zero_mul, zero_smul]
  refine ⟨hI0, ?_⟩
  rw [hI0, zero_mul]
  intro hcon
  have h00 := congrFun (congrFun hcon 0) 0
  simp [Matrix.one_apply] at h00

/-- C7: a box is created with `V = v0` but `P = 0`; the first `step`
overwrites `V` with `P/M = 0` before using it, so the position does not
move and the constructor-supplied initial velocity never influences the
trajectory. -/
theorem box_initial_velocity_ignored (w h d dens : ℝ)
    (v0 omega0 : Vec3f) (dt : ℝ) (hM : dens * w * h * d ≠ 0) :
    ((mkSolver (mkBox w h d dens v0 omega0) ⟨0, 0, 0⟩).step dt).body.X
        = (mkBox w h d dens v0 omega0).X ∧
    ((mkSolver (mkBox w h d dens v0 omega0) ⟨0, 0, 0⟩).step dt).body.V
        = ⟨0, 0, 0⟩ := by
  have hP : (mkSolver (mkBox w h d dens v0 omega0) ⟨0, 0, 0⟩).body.P
      = Vec3f.mk 0 0 0 := rfl
  constructor
  · rw [step_X, hP, Vec3f.divs_zero_vec, Vec3f.smul_zero_vec,
      Vec3f.add_zero_vec]
    rfl
  · rw [step_V, hP, Vec3f.divs_zero_vec]

/-- Witness for C7: a unit box of density 10 with initial velocity
`(1, 2, 3)`, one step of `dt = 1`. -/
theorem box_initial_velocity_ignored_witness :
    ((mkSolver (mkBox 1 1 1 10 ⟨1, 2, 3⟩ ⟨0, 0, 0⟩) ⟨0, 0, 0⟩).step
        1).body.X = (mkBox 1 1 1 10 ⟨1, 2, 3⟩ ⟨0, 0, 0⟩).X ∧
    ((mkSolver (mkBox 1 1 1 10 ⟨1, 2, 3⟩ ⟨0, 0, 0⟩) ⟨0, 0, 0⟩).step
        1).body.V = ⟨0, 0, 0⟩ :=
  box_initial_velocity_ignored 1 1 1 10 ⟨1, 2, 3⟩ ⟨0, 0, 0⟩ 1
    (by norm_num)

/-- C9: a call to `step` leaves `M`, `I0`, `I0inv`, `Iinv` and the
body-space vertex list `vdata0` unchanged; in particular `Iinv` keeps
whatever value construction gave it and is never recomputed. -/
theorem step_preserves_constants (s : RigidSolver) (dt : ℝ) :
    (s.step dt).body.M = s.body.M ∧
    (s.step dt).body.I0 = s.body.I0 ∧
    (s.step dt).body.I0inv = s.body.I0inv ∧
    (s.step dt).body.Iinv = s.body.Iinv ∧
    (s.step dt).body.vdata0 = s.body.vdata0 := by
  refine ⟨?_, ?_, ?_, ?_, ?_⟩ <;> simp [RigidSolver.step]

/-- C2: from a fresh `init` (counter 0), after any list `prev` of prior
`step` calls, the next call computes `F = 0.1·g` plus — exactly when it
is the second call — the fixed impulse `(1, 7, 2.4)/5`, and `tau`
likewise is the fixed torque exactly on the second call and zero on
every other call. -/
theorem force_model_one_shot (s0 : RigidSolver) (h0 : s0.stepCount = 0)
    (prev : List ℝ) (dt : ℝ) :
    if prev.length = 1 then
      ((runSteps s0 prev).step dt).body.F
          = (0.1 : ℝ) • s0.g + (Vec3f.mk 1.0 7 2.4).divs 5.0 ∧
      ((runSteps s0 prev).step dt).body.tau = ⟨0.005, 0.005, 0.0⟩
    else
      ((runSteps s0 prev).step dt).body.F = (0.1 : ℝ) • s0.g ∧
      ((runSteps s0 prev).step dt).body.tau = ⟨0, 0, 0⟩ := by
  have hc : (runSteps s0 prev).stepCount = prev.length := by
    rw [runSteps_stepCount, h0, Nat.zero_add]
  have hg : (runSteps s0 prev).g = s0.g := runSteps_g s0 prev
  by_cases h : prev.length = 1
  · rw [if_pos h]
    exact ⟨by rw [step_F, cft_F_of_eq_one _ (by rw [hc, h]), hg],
           by rw [step_tau, cft_tau_of_eq_one _ (by rw [hc, h])]⟩
  · rw [if_neg h]
    exact ⟨by rw [step_F, cft_F_of_ne_one _ (by rw [hc]; exact h), hg],
           by rw [step_tau, cft_tau_of_ne_one _ (by rw [hc]; exact h)]⟩

/-- Witness for C2: a concrete box-body solver, one prior call, so the
checked call is the second one. -/
theorem force_model_one_shot_witness :
    (mkSolver (mkBox 1 1 1 10 ⟨0, 0, 0⟩ ⟨0, 0, 0⟩) ⟨0, 0, 0⟩).stepCount
        = 0 ∧
    (if ([(1 : ℝ)]).length = 1 then
      ((runSteps (mkSolver (mkBox 1 1 1 10 ⟨0, 0, 0⟩ ⟨0, 0, 0⟩)
            ⟨0, 0, 0⟩) [(1 : ℝ)]).step 1).body.F
          = (0.1 : ℝ) • (⟨0, 0, 0⟩ : Vec3f)
              + (Vec3f.mk 1.0 7 2.4).divs 5.0 ∧
      ((runSteps (mkSolver (mkBox 1 1 1 10 ⟨0, 0, 0⟩ ⟨0, 0, 0⟩)
            ⟨0, 0, 0⟩) [(1 : ℝ)]).step 1).body.tau = ⟨0.005, 0.005, 0.0⟩
    else
      ((runSteps (mkSolver (mkBox 1 1 1 10 ⟨0, 0, 0⟩ ⟨0, 0, 0⟩)
            ⟨0, 0, 0⟩) [(1 : ℝ)]).step 1).body.F
          = (0.1 : ℝ) • (⟨0, 0, 0⟩ : Vec3f) ∧
      ((runSteps (mkSolver (mkBox 1 1 1 10 ⟨0, 0, 0⟩ ⟨0, 0, 0⟩)
            ⟨0, 0, 0⟩) [(1 : ℝ)]).step 1).body.tau = ⟨0, 0, 0⟩) :=
  ⟨rfl, force_model_one_shot _ rfl [(1 : ℝ)] 1⟩

/-- C4: with a fresh counter, zero gravity, zero momenta, zero initial
velocities, a consistent unit quaternion and matching `R`, one `step`
leaves position, orientation and momenta at their initial values. -/
theorem step_inert (s : RigidSolver) (dt : ℝ)
    (h0 : s.stepCount = 0) (hg : s.g = ⟨0, 0, 0⟩) (hM : s.body.M ≠ 0)
    (hV : s.body.V = ⟨0, 0, 0⟩) (homega : s.body.omega = ⟨0, 0, 0⟩)
    (hP : s.body.P = ⟨0, 0, 0⟩) (hL : s.body.L = ⟨0, 0, 0⟩)
    (hQ : s.body.Q.dot s.body.Q = 1)
    (hR : s.body.R = s.body.Q.toRotationMatrix) :
    (s.step dt).body.X = s.body.X ∧
    (s.step dt).body.Q = s.body.Q ∧
    (s.step dt).body.R = s.body.R ∧
    (s.step dt).body.P = s.body.P ∧
    (s.step dt).body.L = s.body.L := by
  have hne : s.stepCount ≠ 1 := by rw [h0]; exact Nat.zero_ne_one
  have hF : (computeForceAndTorque s).body.F = Vec3f.mk 0 0 0 := by
    rw [cft_F_of_ne_one s hne, hg, Vec3f.smul_zero_vec]
  have htau : (computeForceAndTorque s).body.tau = Vec3f.mk 0 0 0 :=
    cft_tau_of_ne_one s hne
  have hQ' : (s.step dt).body.Q = s.body.Q := by
    rw [step_Q, hL, Mat3f.mulVec3_zero_vec]
    have hm : Quaternion.qmul ⟨0, (Vec3f.mk 0 0 0).x,
        (Vec3f.mk 0 0 0).y, (Vec3f.mk 0 0 0).z⟩ s.body.Q
        = ⟨0, 0, 0, 0⟩ := by
      simp [Quaternion.qmul]
    rw [hm]
    have hs : Quaternion.qsmul ⟨0, 0, 0, 0⟩ dt = ⟨0, 0, 0, 0⟩ := by
      simp [Quaternion.qsmul]
    rw [hs]
    have ha : Quaternion.qadd s.body.Q ⟨0, 0, 0, 0⟩ = s.body.Q := by
      simp [Quaternion.qadd]
    rw [ha]
    unfold Quaternion.normalize
    rw [hQ, Real.sqrt_one, one_div_one]
    simp [Quaternion.qsmul]
  refine ⟨?_, hQ', ?_, ?_, ?_⟩
  · rw [step_X, hP, Vec3f.divs_zero_vec, Vec3f.smul_zero_vec,
      Vec3f.add_zero_vec]
  · rw [step_R, hQ', hR]
  · rw [step_P, hF, Vec3f.smul_zero_vec, hP, Vec3f.add_zero_vec]
  · rw [step_L, htau, Vec3f.smul_zero_vec, hL, Vec3f.add_zero_vec]

/-- Witness for C4: a fresh unit box of density 10 in a zero-gravity
solver, stepped once with `dt = 1`. -/
theorem step_inert_witness :
    ((mkSolver (mkBox 1 1 1 10 ⟨0, 0, 0⟩ ⟨0, 0, 0⟩) ⟨0, 0, 0⟩).step
        1).body.X
      = (mkSolver (mkBox 1 1 1 10 ⟨0, 0, 0⟩ ⟨0, 0, 0⟩)
          ⟨0, 0, 0⟩).body.X ∧
    ((mkSolver (mkBox 1 1 1 10 ⟨0, 0, 0⟩ ⟨0, 0, 0⟩) ⟨0, 0, 0⟩).step
        1).body.Q
      = (mkSolver (mkBox 1 1 1 10 ⟨0, 0, 0⟩ ⟨0, 0, 0⟩)
          ⟨0, 0, 0⟩).body.Q ∧
    ((mkSolver (mkBox 1 1 1 10 ⟨0, 0, 0⟩ ⟨0, 0, 0⟩) ⟨0, 0, 0⟩).step
        1).body.R
      = (mkSolver (mkBox 1 1 1 10 ⟨0, 0, 0⟩ ⟨0, 0, 0⟩)
          ⟨0, 0, 0⟩).body.R ∧
    ((mkSolver (mkBox 1 1 1 10 ⟨0, 0, 0⟩ ⟨0, 0, 0⟩) ⟨0, 0, 0⟩).step
        1).body.P
      = (mkSolver (mkBox 1 1 1 10 ⟨0, 0, 0⟩ ⟨0, 0, 0⟩)
          ⟨0, 0, 0⟩).body.P ∧
    ((mkSolver (mkBox 1 1 1 10 ⟨0, 0, 0⟩ ⟨0, 0, 0⟩) ⟨0, 0, 0⟩).step
        1).body.L
      = (mkSolver (mkBox 1 1 1 10 ⟨0, 0, 0⟩ ⟨0, 0, 0⟩)
          ⟨0, 0, 0⟩).body.L :=
  step_inert (mkSolver (mkBox 1 1 1 10 ⟨0, 0, 0⟩ ⟨0, 0, 0⟩) ⟨0, 0, 0⟩)
    1 rfl rfl (by norm_num [mkSolver, mkBox]) rfl rfl rfl rfl
    (by norm_num [mkSolver, mkBox, Quaternion.dot])
    (by
      ext i j
      fin_cases i <;> fin_cases j <;>
        simp [mkSolver, mkBox, Quaternion.toRotationMatrix,
          Matrix.one_apply, Matrix.vecHead, Matrix.vecTail])

/-- The self-dot of the pre-normalization quaternion update
`q + (0,w)·q·dt` factors as `(1 + dt²·|w|²) · (q·q)`. -/
theorem dot_qupdate (q : Quaternion) (wx wy wz dt : ℝ) :
    (Quaternion.qadd q
      (Quaternion.qsmul (Quaternion.qmul ⟨0, wx, wy, wz⟩ q) dt)).dot
    (Quaternion.qadd q
      (Quaternion.qsmul (Quaternion.qmul ⟨0, wx, wy, wz⟩ q) dt))
      = (1 + dt ^ 2 * (wx ^ 2 + wy ^ 2 + wz ^ 2)) * q.dot q := by
  simp only [Quaternion.qadd, Quaternion.qsmul, Quaternion.qmul,
    Quaternion.dot]
  ring

/-- One `step` preserves unit self-dot of the quaternion: the
pre-normalization quaternion has self-dot `1 + dt²·|omega|² ≠ 0`, so the
renormalization restores self-dot 1. -/
theorem step_dot (s : RigidSolver) (dt : ℝ)
    (h : s.body.Q.dot s.body.Q = 1) :
    ((s.step dt).body.Q).dot ((s.step dt).body.Q) = 1 := by
  rw [step_Q]
  apply dot_normalize_self
  rw [dot_qupdate, h, mul_one]
  positivity

/-- Unit self-dot of the quaternion is preserved by any number of
consecutive `step` calls. -/
theorem runSteps_dot (s : RigidSolver) (dts : List ℝ)
    (h : s.body.Q.dot s.body.Q = 1) :
    ((runSteps s dts).body.Q).dot ((runSteps s dts).body.Q) = 1 := by
  induction dts generalizing s with
  | nil => exact h
  | cons a l ih =>
      rw [runSteps, List.foldl_cons, ← runSteps]
      exact ih _ (step_dot s a h)

/-- C5: starting from a body whose quaternion has norm 1, after any
number of consecutive `step` calls (any `dt`s, any angular momentum,
hence any angular velocity) the quaternion still has norm 1. -/
theorem quaternion_norm_invariant (s : RigidSolver) (dts : List ℝ)
    (h : Quaternion.qnorm s.body.Q = 1) :
    Quaternion.qnorm ((runSteps s dts).body.Q) = 1 := by
  unfold Quaternion.qnorm at h ⊢
  rw [runSteps_dot s dts (Real.sqrt_eq_one.mp h), Real.sqrt_one]

/-- A concrete body with identity inverse inertia and nonzero angular
momentum, so that stepping it produces a genuinely nonzero angular
velocity; used to witness the norm invariant. -/
noncomputable def spinBody : BodyAttributes :=
  { M := 1, I0 := 1, I0inv := 1, Iinv := 1, X := ⟨0, 0, 0⟩, R := 1,
    Q := ⟨1, 0, 0, 0⟩, P := ⟨0, 0, 0⟩, L := ⟨1, 1, 1⟩, V := ⟨0, 0, 0⟩,
    omega := ⟨0, 0, 0⟩, F := ⟨0, 0, 0⟩, tau := ⟨0, 0, 0⟩, vdata0 := [] }

/-- Witness for C5: two consecutive steps of a spinning body (nonzero
angular momentum, identity `Iinv`, hence nonzero omega each step). -/
theorem quaternion_norm_invariant_witness :
    Quaternion.qnorm (mkSolver spinBody ⟨0, 0, 0⟩).body.Q = 1 ∧
    Quaternion.qnorm
      ((runSteps (mkSolver spinBody ⟨0, 0, 0⟩) [1, 1]).body.Q) = 1 :=
  ⟨by simp [mkSolver, spinBody, Quaternion.qnorm, Quaternion.dot],
   quaternion_norm_invariant (mkSolver spinBody ⟨0, 0, 0⟩) [1, 1]
     (by simp [mkSolver, spinBody, Quaternion.qnorm, Quaternion.dot])⟩

/-- C6: if the force model yields the same force `F` at each of `n`
consecutive calls with fixed `dt` from a fresh `init` and the linear
momentum starts at zero, then after the `n` calls the momentum is
exactly `n·dt·F` — the semi-implicit recurrence `P += dt·F`. -/
theorem momentum_recurrence (s0 : RigidSolver) (h0 : s0.stepCount = 0)
    (hP : s0.body.P = ⟨0, 0, 0⟩) (n : ℕ) (dt : ℝ) (F : Vec3f)
    (hF : ∀ k < n, (computeForceAndTorque (stepN s0 dt k)).body.F = F) :
    (stepN s0 dt n).body.P = ((n : ℝ) * dt) • F := by
  induction n with
  | zero =>
      rw [stepN, hP]
      ext <;> simp
  | succ n ih =>
      have hstep : (stepN s0 dt (n + 1)).body.P
          = (stepN s0 dt n).body.P
              + dt • (computeForceAndTorque (stepN s0 dt n)).body.F := by
        rw [stepN, step_P]
      rw [hstep, hF n (Nat.lt_succ_self n),
        ih (fun k hk => hF k (Nat.lt_succ_of_lt hk))]
      ext <;> push_cast <;> simp <;> ring

/-- Witness for C6: one step with gravity `(10, 0, 0)`, `dt = 2`; the
force at the only call is `0.1·g = (1, 0, 0)` and the momentum ends at
`1·2·(1, 0, 0)`. -/
theorem momentum_recurrence_witness :
    (stepN (mkSolver (mkBox 1 1 1 10 ⟨0, 0, 0⟩ ⟨0, 0, 0⟩)
        ⟨10, 0, 0⟩) 2 1).body.P
      = (((1 : ℕ) : ℝ) * 2) • Vec3f.mk 1 0 0 :=
  momentum_recurrence
    (mkSolver (mkBox 1 1 1 10 ⟨0, 0, 0⟩ ⟨0, 0, 0⟩) ⟨10, 0, 0⟩)
    rfl rfl 1 2 (Vec3f.mk 1 0 0)
    (by
      intro k hk
      have hk0 : k = 0 := Nat.lt_one_iff.mp hk
      subst hk0
      rw [show stepN (mkSolver (mkBox 1 1 1 10 ⟨0, 0, 0⟩ ⟨0, 0, 0⟩)
          ⟨10, 0, 0⟩) 2 0
        = mkSolver (mkBox 1 1 1 10 ⟨0, 0, 0⟩ ⟨0, 0, 0⟩) ⟨10, 0, 0⟩
        from rfl]
      rw [cft_F_of_ne_one _ (by rw [show (mkSolver
          (mkBox 1 1 1 10 ⟨0, 0, 0⟩ ⟨0, 0, 0⟩)
          ⟨10, 0, 0⟩).stepCount = 0 from rfl]; exact Nat.zero_ne_one)]
      ext <;> norm_num [mkSolver])

end RigidSim
